import Mathlib

/-!
Shallow embedding of the gamelight repository (a multi-user bridge for the
Moonlight game-streaming protocol) and proofs about its specification.

Conventions used throughout:
* Go byte slices are `List Nat` with each entry a byte value (0..255).
* Go strings are Lean `String`; iterating a Go string with `range` yields
  runes, which correspond to Lean `Char`.
* Go maps keyed by id are association lists in insertion order; Go iterates
  maps in an unspecified order, the embedding iterates in list order.
* Functions that can panic in Go return an `Option`-wrapped result where
  `none` marks the panic, or a dedicated result type with a `panic` case.
* External standard-library primitives used by the code (SHA-256, CBC block
  chaining, UTF-8) are given their standard definitions; the AES block
  permutation itself is kept abstract as a pair of functions `E`, `D`.
-/

namespace Gamelight

/-! ## Session data model (src/pkg/session/session.go) -/

/-- Role of a participant: `RoleSpectator` or `RolePlayer` in the source. -/
inductive Role where
  | spectator
  | player
deriving DecidableEq, Repr

/-- Participant record; `slot` is the Go `PlayerSlot` int (0 = SlotNone, 1..4). -/
structure Participant where
  id : String
  name : String
  role : Role
  slot : Nat
  isHost : Bool
  canKeyboard : Bool
  canMouse : Bool
deriving DecidableEq, Repr

/-- Stream quality settings. -/
structure StreamSettings where
  bitrate : Nat
  fps : Nat
  width : Nat
  height : Nat
deriving DecidableEq, Repr

/-- Session state: participants keyed by id (association list in insertion
order), the five-entry slot array (index 0 unused) holding the id of the
occupying participant (`none` = nil pointer), and the host id. -/
structure Session where
  id : String
  appID : Nat
  appName : String
  settings : StreamSettings
  participants : List Participant
  slots : List (Option String)
  hostID : String
deriving DecidableEq, Repr

/-- Typed session errors from the `errors.New` values in the source. -/
inductive SessionError where
  | noSlotAvailable
  | alreadyPlayer
  | notAPlayer
  | notHost
  | sessionExists
  | noSession
deriving DecidableEq, Repr

/-- Fresh session as built by `Manager.CreateSession`: no participants, all
slots nil, no host. -/
def createSession (id : String) (appID : Nat) (appName : String)
    (settings : StreamSettings) : Session :=
  { id := id, appID := appID, appName := appName, settings := settings,
    participants := [], slots := List.replicate 5 none, hostID := "" }

/-- Lookup in the participants map (`s.participants[id]`). -/
def findP (s : Session) (id : String) : Option Participant :=
  s.participants.find? (fun p => p.id == id)

/-- In-place mutation of the participant struct with the given id (Go mutates
through the shared pointer; the slot array stores ids, so it needs no update). -/
def updateP (s : Session) (id : String) (f : Participant → Participant) : Session :=
  { s with participants := s.participants.map (fun p => if p.id == id then f p else p) }

/-- Participant record built by Session.Join: the first joiner becomes host
(role Player, slot 1, both permissions), later joiners are spectators. -/
def newJoiner (s : Session) (id name : String) : Participant :=
  let isHost := s.participants.isEmpty
  { id := id, name := name,
    role := if isHost then Role.player else Role.spectator,
    slot := if isHost then 1 else 0,
    isHost := isHost, canKeyboard := isHost, canMouse := isHost }

/-- Session.Join: idempotent by id; the first participant becomes host with
role Player, slot 1 and both permissions; later ones are spectators. -/
def join (s : Session) (id name : String) : Session × Participant :=
  match findP s id with
  | some p => (s, p)
  | none =>
    let p := newJoiner s id name
    ({ s with participants := s.participants ++ [p],
              slots := if p.slot ≠ 0 then s.slots.set p.slot (some id) else s.slots,
              hostID := if p.isHost then id else s.hostID }, p)

/-- Session.Leave: removes the participant, clears its slot, and if the leaver
was host promotes the first remaining participant with role Player (Go picks
one in unspecified map order) to host with full permissions. Returns the
removed participant and the `sessionEnded` flag, computed exactly as in the
source: `wasHost && s.hostID == ""`. -/
def leave (s : Session) (id : String) : Session × Option Participant × Bool :=
  match findP s id with
  | none => (s, none, false)
  | some p =>
    let s2 := { s with slots := if p.slot ≠ 0 then s.slots.set p.slot none else s.slots,
                       participants := s.participants.filter (fun q => ¬(q.id == id)) }
    if p.isHost then
      let s4 :=
        match s2.participants.find? (fun q => q.role == Role.player) with
        | some q =>
          { (updateP s2 q.id (fun r =>
              { r with isHost := true, canKeyboard := true, canMouse := true }))
            with hostID := q.id }
        | none => { s2 with hostID := "" }
      (s4, some p, p.isHost && (s4.hostID == ""))
    else
      (s2, some p, false)

/-- Slot search loop of Session.JoinAsPlayer: the first of slots 1..4 whose
array entry is nil, else 0 (SlotNone). -/
def findFreeSlot (slots : List (Option String)) : Nat :=
  if (slots.getD 1 none).isNone then 1
  else if (slots.getD 2 none).isNone then 2
  else if (slots.getD 3 none).isNone then 3
  else if (slots.getD 4 none).isNone then 4
  else 0

/-- Session.JoinAsPlayer: promotes a spectator to a player in the lowest free
slot; errors leave the state as it was at the point of return. -/
def joinAsPlayer (s : Session) (id : String) : Option SessionError × Session :=
  match findP s id with
  | none => (some SessionError.noSession, s)
  | some p =>
    if p.role = Role.player then (some SessionError.alreadyPlayer, s)
    else
      let slot := findFreeSlot s.slots
      if slot = 0 then (some SessionError.noSlotAvailable, s)
      else
        let s1 := updateP s id (fun r => { r with role := Role.player, slot := slot })
        (none, { s1 with slots := s1.slots.set slot (some id) })

/-- Session.Spectate: demotes a non-host player to spectator, clearing its
slot and both permissions. -/
def spectate (s : Session) (id : String) : Option SessionError × Session :=
  match findP s id with
  | none => (some SessionError.noSession, s)
  | some p =>
    if p.role ≠ Role.player then (some SessionError.notAPlayer, s)
    else if p.isHost then (some SessionError.notHost, s)
    else
      let s1 := { s with slots := if p.slot ≠ 0 then s.slots.set p.slot none else s.slots }
      (none, updateP s1 id (fun r =>
        { r with role := Role.spectator, slot := 0, canKeyboard := false, canMouse := false }))

/-- Session.SetKeyboardPermission: host-only; sets the target's keyboard flag.
The source has no guard against the host targeting itself. -/
def setKeyboardPermission (s : Session) (hostID targetID : String) (allowed : Bool) :
    Option SessionError × Session :=
  if s.hostID ≠ hostID then (some SessionError.notHost, s)
  else
    match findP s targetID with
    | none => (some SessionError.noSession, s)
    | some _ => (none, updateP s targetID (fun r => { r with canKeyboard := allowed }))

/-- Session.SetMousePermission: host-only; sets the target's mouse flag. -/
def setMousePermission (s : Session) (hostID targetID : String) (allowed : Bool) :
    Option SessionError × Session :=
  if s.hostID ≠ hostID then (some SessionError.notHost, s)
  else
    match findP s targetID with
    | none => (some SessionError.noSession, s)
    | some _ => (none, updateP s targetID (fun r => { r with canMouse := allowed }))

/-- Session.GetActiveGamepads: bitmask over slots 1..4, bit i-1 set when slot
i is occupied. -/
def getActiveGamepads (s : Session) : Nat :=
  [1, 2, 3, 4].foldl
    (fun mask i => if (s.slots.getD i none).isSome then mask ||| (1 <<< (i - 1)) else mask) 0

/-- Labelled session operations, for reachability over operation sequences. -/
inductive Op where
  | join (id name : String)
  | leave (id : String)
  | joinAsPlayer (id : String)
  | spectate (id : String)
  | setKeyboardPermission (hostID targetID : String) (allowed : Bool)
  | setMousePermission (hostID targetID : String) (allowed : Bool)
deriving DecidableEq, Repr

/-- State reached after one operation (results other than the state dropped). -/
def applyOp (s : Session) : Op → Session
  | Op.join id name => (join s id name).1
  | Op.leave id => (leave s id).1
  | Op.joinAsPlayer id => (joinAsPlayer s id).2
  | Op.spectate id => (spectate s id).2
  | Op.setKeyboardPermission h t a => (setKeyboardPermission s h t a).2
  | Op.setMousePermission h t a => (setMousePermission s h t a).2

/-- State reached after a sequence of operations. -/
def runOps (s : Session) (ops : List Op) : Session :=
  ops.foldl applyOp s

/-- Default settings used in the concrete traces below. -/
def defaultSettings : StreamSettings :=
  { bitrate := 10000, fps := 60, width := 1920, height := 1080 }

/-- Concrete empty session used by witnesses and counterexamples. -/
def s0 : Session := createSession "sess" 1 "Desktop" defaultSettings

/-! ## Session invariant machinery -/

/-- Per-participant part of the session invariant: a host is a player, and a
player occupies one of the four slots. -/
def participantOK (p : Participant) : Prop :=
  (p.isHost = true → p.role = Role.player) ∧
  (p.role = Role.player → 1 ≤ p.slot ∧ p.slot ≤ 4)

/-- Session invariant: participant ids are distinct (Go map keys) and every
participant satisfies `participantOK`. -/
def sessionInv (s : Session) : Prop :=
  (s.participants.map Participant.id).Nodup ∧ ∀ p ∈ s.participants, participantOK p

theorem sessionInv_createSession (id : String) (appID : Nat) (appName : String)
    (st : StreamSettings) : sessionInv (createSession id appID appName st) := by
  constructor <;> simp [createSession]

theorem updateP_participants (s : Session) (id : String) (f : Participant → Participant) :
    (updateP s id f).participants
      = s.participants.map (fun p => if p.id == id then f p else p) := rfl

theorem updateP_ids (s : Session) (id : String) (f : Participant → Participant)
    (hf : ∀ p, (f p).id = p.id) :
    (updateP s id f).participants.map Participant.id
      = s.participants.map Participant.id := by
  simp only [updateP_participants, List.map_map]
  refine List.map_congr_left (fun p _ => ?_)
  by_cases h : p.id == id
  · simp only [Function.comp_apply, if_pos h, hf]
  · simp only [Function.comp_apply, if_neg h]

theorem find?_map_update (l : List Participant) (id : String)
    (f : Participant → Participant) (hf : ∀ p, (f p).id = p.id) :
    (l.map (fun p => if p.id == id then f p else p)).find? (fun p => p.id == id)
      = (l.find? (fun p => p.id == id)).map f := by
  induction l with
  | nil => rfl
  | cons a l ih =>
    cases h : (a.id == id) with
    | true =>
      have ha : (if a.id == id then f a else a) = f a := if_pos h
      have hfa : ((f a).id == id) = true := by rw [hf]; exact h
      rw [List.map_cons, ha, List.find?_cons, List.find?_cons, hfa, h]
      rfl
    | false =>
      have ha : (if a.id == id then f a else a) = a := if_neg (by rw [h]; exact Bool.false_ne_true)
      rw [List.map_cons, ha, List.find?_cons, List.find?_cons, h]
      exact ih

theorem findP_updateP (s : Session) (id : String) (f : Participant → Participant)
    (hf : ∀ p, (f p).id = p.id) :
    findP (updateP s id f) id = (findP s id).map f := by
  simp only [findP, updateP_participants]
  exact find?_map_update s.participants id f hf

theorem ids_map_update (l : List Participant) (id : String)
    (f : Participant → Participant) (hf : ∀ p, (f p).id = p.id) :
    (l.map (fun p => if p.id == id then f p else p)).map Participant.id
      = l.map Participant.id := by
  rw [List.map_map]
  refine List.map_congr_left (fun p _ => ?_)
  by_cases h : p.id == id
  · simp only [Function.comp_apply, if_pos h, hf]
  · simp only [Function.comp_apply, if_neg h]

theorem mem_map_update (l : List Participant) (id : String)
    (f : Participant → Participant) (x : Participant)
    (hx : x ∈ l.map (fun p => if p.id == id then f p else p)) :
    (∃ a ∈ l, (a.id == id) = true ∧ x = f a) ∨ x ∈ l := by
  obtain ⟨a, ha, hax⟩ := List.mem_map.mp hx
  by_cases h : (a.id == id) = true
  · exact Or.inl ⟨a, ha, h, by rw [← hax, if_pos h]⟩
  · right
    rw [← hax, if_neg h]
    exact ha

theorem findP_mem (s : Session) (id : String) (p : Participant)
    (h : findP s id = some p) : p ∈ s.participants :=
  List.mem_of_find?_eq_some h

theorem findP_id (s : Session) (id : String) (p : Participant)
    (h : findP s id = some p) : p.id = id := by
  simpa using List.find?_some h

theorem sessionInv_join (s : Session) (id name : String) (h : sessionInv s) :
    sessionInv (join s id name).1 := by
  obtain ⟨hnd, hok⟩ := h
  cases hfind : findP s id with
  | some p => simpa [join, hfind] using ⟨hnd, hok⟩
  | none =>
    have hid : ∀ q ∈ s.participants, q.id ≠ id := by
      intro q hq
      have := List.find?_eq_none.mp hfind q hq
      simpa using this
    have hpart : (join s id name).1.participants
        = s.participants ++ [newJoiner s id name] := by
      simp only [join, hfind]
    refine ⟨?_, ?_⟩ <;> rw [hpart]
    · rw [List.map_append]
      refine List.Nodup.append hnd (List.nodup_singleton _) ?_
      intro x hx hx2
      obtain ⟨q, hq, rfl⟩ := List.mem_map.mp hx
      exact hid q hq (by simpa [newJoiner] using hx2)
    · intro p hp
      rcases List.mem_append.mp hp with hp | hp
      · exact hok p hp
      · have hp := List.mem_singleton.mp hp
        subst hp
        by_cases he : s.participants.isEmpty <;>
          simp [participantOK, newJoiner, he]

theorem sessionInv_leave (s : Session) (id : String) (h : sessionInv s) :
    sessionInv (leave s id).1 := by
  obtain ⟨hnd, hok⟩ := h
  cases hfind : findP s id with
  | none => simpa [leave, hfind] using ⟨hnd, hok⟩
  | some p =>
    have hnd2 : ((s.participants.filter (fun q => ¬(q.id == id))).map Participant.id).Nodup :=
      hnd.sublist ((List.filter_sublist _).map _)
    have hok2 : ∀ q ∈ s.participants.filter (fun q => ¬(q.id == id)), participantOK q :=
      fun q hq => hok q (List.mem_of_mem_filter hq)
    by_cases hhost : p.isHost = true
    · cases hfq : (s.participants.filter (fun q => ¬(q.id == id))).find?
          (fun q => q.role == Role.player) with
      | none =>
        have hpart : (leave s id).1.participants
            = s.participants.filter (fun q => ¬(q.id == id)) := by
          simp only [leave, hfind, hhost, if_true, hfq]
        refine ⟨?_, ?_⟩ <;> rw [hpart]
        · exact hnd2
        · exact hok2
      | some q =>
        have hqmem := List.mem_of_find?_eq_some hfq
        have hqrole : q.role = Role.player := by simpa using List.find?_some hfq
        have hpart : (leave s id).1.participants
            = (s.participants.filter (fun r => ¬(r.id == id))).map
                (fun r => if r.id == q.id then
                  { r with isHost := true, canKeyboard := true, canMouse := true } else r) := by
          simp only [leave, hfind, hhost, if_true, hfq, updateP]
        refine ⟨?_, ?_⟩ <;> rw [hpart]
        · rw [ids_map_update]
          · exact hnd2
          · intro r; rfl
        · intro x hx
          rcases mem_map_update _ _ _ _ hx with ⟨a, ha, haq, rfl⟩ | hx2
          · have haq2 : a = q := by
              refine List.inj_on_of_nodup_map hnd2 ha hqmem ?_
              simpa using haq
            subst haq2
            obtain ⟨-, h2⟩ := hok2 a ha
            exact ⟨fun _ => hqrole, fun _ => h2 hqrole⟩
          · exact hok2 x hx2
    · have hh2 : p.isHost = false := by simpa using hhost
      have hpart : (leave s id).1.participants
          = s.participants.filter (fun q => ¬(q.id == id)) := by
        simp only [leave, hfind, hh2, Bool.false_eq_true, if_false]
      refine ⟨?_, ?_⟩ <;> rw [hpart]
      · exact hnd2
      · exact hok2

theorem findFreeSlot_cases (slots : List (Option String)) :
    findFreeSlot slots = 0 ∨ (1 ≤ findFreeSlot slots ∧ findFreeSlot slots ≤ 4) := by
  unfold findFreeSlot
  split
  · right; omega
  · split
    · right; omega
    · split
      · right; omega
      · split
        · right; omega
        · left; rfl

theorem sessionInv_joinAsPlayer (s : Session) (id : String) (h : sessionInv s) :
    sessionInv (joinAsPlayer s id).2 := by
  obtain ⟨hnd, hok⟩ := h
  cases hfind : findP s id with
  | none => simpa [joinAsPlayer, hfind] using ⟨hnd, hok⟩
  | some p =>
    by_cases hrole : p.role = Role.player
    · simpa [joinAsPlayer, hfind, hrole] using ⟨hnd, hok⟩
    · by_cases hslot : findFreeSlot s.slots = 0
      · simpa [joinAsPlayer, hfind, hrole, hslot] using ⟨hnd, hok⟩
      · have hrange : 1 ≤ findFreeSlot s.slots ∧ findFreeSlot s.slots ≤ 4 :=
          (findFreeSlot_cases s.slots).resolve_left hslot
        have hpart : (joinAsPlayer s id).2.participants
            = s.participants.map (fun r => if r.id == id then
                { r with role := Role.player, slot := findFreeSlot s.slots } else r) := by
          simp only [joinAsPlayer, hfind, if_neg hrole, if_neg hslot, updateP]
        refine ⟨?_, ?_⟩ <;> rw [hpart]
        · rw [ids_map_update]
          · exact hnd
          · intro r; rfl
        · intro x hx
          rcases mem_map_update _ _ _ _ hx with ⟨a, ha, haq, rfl⟩ | hx2
          · exact ⟨fun _ => rfl, fun _ => hrange⟩
          · exact hok x hx2

theorem sessionInv_spectate (s : Session) (id : String) (h : sessionInv s) :
    sessionInv (spectate s id).2 := by
  obtain ⟨hnd, hok⟩ := h
  cases hfind : findP s id with
  | none => simpa [spectate, hfind] using ⟨hnd, hok⟩
  | some p =>
    by_cases hrole : p.role ≠ Role.player
    · simpa [spectate, hfind, hrole] using ⟨hnd, hok⟩
    · by_cases hhost : p.isHost = true
      · simpa [spectate, hfind, hrole, hhost] using ⟨hnd, hok⟩
      · have hpart : (spectate s id).2.participants
            = s.participants.map (fun r => if r.id == id then
                { r with role := Role.spectator, slot := 0,
                         canKeyboard := false, canMouse := false } else r) := by
          have hh2 : p.isHost = false := by simpa using hhost
          simp only [spectate, hfind, if_neg hrole, hh2, Bool.false_eq_true, if_false, updateP]
        refine ⟨?_, ?_⟩ <;> rw [hpart]
        · rw [ids_map_update]
          · exact hnd
          · intro r; rfl
        · intro x hx
          rcases mem_map_update _ _ _ _ hx with ⟨a, ha, haq, rfl⟩ | hx2
          · have hap : a = p := by
              refine List.inj_on_of_nodup_map hnd ha (findP_mem s id p hfind) ?_
              rw [findP_id s id p hfind]
              simpa using haq
            subst hap
            refine ⟨fun hcon => absurd ?_ hhost, fun hcon => by simp at hcon⟩
            simpa using hcon
          · exact hok x hx2

theorem sessionInv_setKeyboardPermission (s : Session) (hostID targetID : String)
    (allowed : Bool) (h : sessionInv s) :
    sessionInv (setKeyboardPermission s hostID targetID allowed).2 := by
  obtain ⟨hnd, hok⟩ := h
  by_cases hh : s.hostID ≠ hostID
  · simpa [setKeyboardPermission, hh] using ⟨hnd, hok⟩
  · cases hfind : findP s targetID with
    | none => simpa [setKeyboardPermission, hh, hfind] using ⟨hnd, hok⟩
    | some p =>
      have hpart : (setKeyboardPermission s hostID targetID allowed).2.participants
          = s.participants.map (fun r => if r.id == targetID then
              { r with canKeyboard := allowed } else r) := by
        simp only [setKeyboardPermission, if_neg hh, hfind, updateP]
      refine ⟨?_, ?_⟩ <;> rw [hpart]
      · rw [ids_map_update]
        · exact hnd
        · intro r; rfl
      · intro x hx
        rcases mem_map_update _ _ _ _ hx with ⟨a, ha, haq, rfl⟩ | hx2
        · exact hok a ha
        · exact hok x hx2

theorem sessionInv_setMousePermission (s : Session) (hostID targetID : String)
    (allowed : Bool) (h : sessionInv s) :
    sessionInv (setMousePermission s hostID targetID allowed).2 := by
  obtain ⟨hnd, hok⟩ := h
  by_cases hh : s.hostID ≠ hostID
  · simpa [setMousePermission, hh] using ⟨hnd, hok⟩
  · cases hfind : findP s targetID with
    | none => simpa [setMousePermission, hh, hfind] using ⟨hnd, hok⟩
    | some p =>
      have hpart : (setMousePermission s hostID targetID allowed).2.participants
          = s.participants.map (fun r => if r.id == targetID then
              { r with canMouse := allowed } else r) := by
        simp only [setMousePermission, if_neg hh, hfind, updateP]
      refine ⟨?_, ?_⟩ <;> rw [hpart]
      · rw [ids_map_update]
        · exact hnd
        · intro r; rfl
      · intro x hx
        rcases mem_map_update _ _ _ _ hx with ⟨a, ha, haq, rfl⟩ | hx2
        · exact hok a ha
        · exact hok x hx2

theorem sessionInv_applyOp (s : Session) (op : Op) (h : sessionInv s) :
    sessionInv (applyOp s op) := by
  cases op with
  | join id name => exact sessionInv_join s id name h
  | leave id => exact sessionInv_leave s id h
  | joinAsPlayer id => exact sessionInv_joinAsPlayer s id h
  | spectate id => exact sessionInv_spectate s id h
  | setKeyboardPermission a b c => exact sessionInv_setKeyboardPermission s a b c h
  | setMousePermission a b c => exact sessionInv_setMousePermission s a b c h

theorem sessionInv_runOps (s : Session) (ops : List Op) (h : sessionInv s) :
    sessionInv (runOps s ops) := by
  induction ops generalizing s with
  | nil => exact h
  | cons op ops ih => exact ih _ (sessionInv_applyOp s op h)

/-! ## Further helper lemmas for the session claims -/

theorem isSome_of_not_isNone (o : Option String) (h : ¬o.isNone = true) :
    o.isSome = true := by
  cases o <;> simp_all

theorem isNone_eq_false_of_isSome (o : Option String) (h : o.isSome = true) :
    o.isNone = false := by
  cases o <;> simp_all

theorem getD_set_none (l : List (Option String)) (i : Nat) :
    (l.set i none).getD i none = none := by
  rcases lt_or_ge i l.length with h | h
  · simp [List.getD, List.getElem?_set_self, h]
  · have h2 : (l.set i none).length ≤ i := by simpa using h
    simp [List.getD, List.getElem?_eq_none h2]

theorem find?_id_eq_none (l : List Participant) (id : String)
    (h : ∀ x ∈ l, ¬(x.id = id)) :
    l.find? (fun q => q.id == id) = none :=
  List.find?_eq_none.mpr (fun x hx => by simpa using h x hx)

theorem findFreeSlot_eq_zero (sl : List (Option String))
    (h : ∀ i, 1 ≤ i → i ≤ 4 → (sl.getD i none).isSome = true) :
    findFreeSlot sl = 0 := by
  have n1 := isNone_eq_false_of_isSome _ (h 1 (by omega) (by omega))
  have n2 := isNone_eq_false_of_isSome _ (h 2 (by omega) (by omega))
  have n3 := isNone_eq_false_of_isSome _ (h 3 (by omega) (by omega))
  have n4 := isNone_eq_false_of_isSome _ (h 4 (by omega) (by omega))
  unfold findFreeSlot
  rw [n1, n2, n3, n4]
  simp

theorem findFreeSlot_spec (sl : List (Option String)) (k : Nat)
    (hk : findFreeSlot sl = k) (h1 : 1 ≤ k) :
    k ≤ 4 ∧ (sl.getD k none).isNone = true ∧
    ∀ j, 1 ≤ j → j < k → (sl.getD j none).isSome = true := by
  unfold findFreeSlot at hk
  split_ifs at hk with hb1 hb2 hb3 hb4
  · subst hk
    refine ⟨by omega, hb1, fun j hj1 hj2 => ?_⟩
    omega
  · subst hk
    refine ⟨by omega, hb2, fun j hj1 hj2 => ?_⟩
    have : j = 1 := by omega
    subst this
    exact isSome_of_not_isNone _ hb1
  · subst hk
    refine ⟨by omega, hb3, fun j hj1 hj2 => ?_⟩
    interval_cases j
    · exact isSome_of_not_isNone _ hb1
    · exact isSome_of_not_isNone _ hb2
  · subst hk
    refine ⟨by omega, hb4, fun j hj1 hj2 => ?_⟩
    interval_cases j
    · exact isSome_of_not_isNone _ hb1
    · exact isSome_of_not_isNone _ hb2
    · exact isSome_of_not_isNone _ hb3
  · omega

/-! ## Claims C1, C2, C7, C8 about the session state machine -/

/-- C1 (counterexample): the claimed invariant `p.isHost → p.slot = 1` fails on
a reachable state. After Join a, Join b, JoinAsPlayer b (slot 2), Leave a, the
promoted host b keeps slot 2: Session.Leave transfers the host flag but does
not move the promoted player to slot 1. -/
theorem C1_counterexample :
    (findP (runOps s0 [Op.join "a" "n", Op.join "b" "m", Op.joinAsPlayer "b",
        Op.leave "a"]) "b").map (fun p => (p.isHost, p.role, p.slot))
      = some (true, Role.player, 2) := by decide

/-- C1 (amended): for every session state reachable from a fresh session by
Join, Leave, JoinAsPlayer, Spectate, SetKeyboardPermission and
SetMousePermission operations, every participant with the host flag has role
Player and a slot in 1..4 (not necessarily slot 1, and the permissions need
not be true: see C2). -/
theorem C1_host_invariant (sid : String) (aid : Nat) (an : String)
    (st : StreamSettings) (ops : List Op) (p : Participant)
    (hp : p ∈ (runOps (createSession sid aid an st) ops).participants)
    (hh : p.isHost = true) :
    p.role = Role.player ∧ 1 ≤ p.slot ∧ p.slot ≤ 4 := by
  obtain ⟨-, hok⟩ := sessionInv_runOps _ ops (sessionInv_createSession sid aid an st)
  obtain ⟨h1, h2⟩ := hok p hp
  exact ⟨h1 hh, h2 (h1 hh)⟩

/-- Host participant reached by a single Join, for the C1 witness. -/
def pHostA : Participant :=
  { id := "a", name := "n", role := Role.player, slot := 1, isHost := true,
    canKeyboard := true, canMouse := true }

/-- Witness for C1_host_invariant at the one-join trace. -/
theorem C1_witness :
    pHostA.role = Role.player ∧ 1 ≤ pHostA.slot ∧ pHostA.slot ≤ 4 :=
  C1_host_invariant "sess" 1 "Desktop" defaultSettings [Op.join "a" "n"] pHostA
    (by decide) (by decide)

/-- C2 (counterexample): host permissions are not immutable. After Join h,
SetKeyboardPermission(h, h, false) leaves h as host with canKeyboard = false;
likewise for the mouse permission. -/
theorem C2_counterexample :
    (findP (runOps s0 [Op.join "h" "n", Op.setKeyboardPermission "h" "h" false]) "h").map
        (fun p => (p.isHost, p.canKeyboard))
      = some (true, false) ∧
    (runOps s0 [Op.join "h" "n", Op.setKeyboardPermission "h" "h" false]).hostID = "h" ∧
    (findP (runOps s0 [Op.join "h" "n", Op.setMousePermission "h" "h" false]) "h").map
        (fun p => (p.isHost, p.canMouse))
      = some (true, false) ∧
    (runOps s0 [Op.join "h" "n", Op.setMousePermission "h" "h" false]).hostID = "h" := by
  decide

/-- C2 (amended): the host can change its own permissions. When the caller is
the current host and targets itself, SetKeyboardPermission and
SetMousePermission succeed and set the host's flag to the given value while
the host id is unchanged; host permissions are only guaranteed true at the
moment the host is created (first Join, or promotion in Leave). -/
theorem C2_host_self_permission (s : Session) (h : Participant) (allowed : Bool)
    (hfind : findP s h.id = some h) (hhost : s.hostID = h.id) :
    (setKeyboardPermission s h.id h.id allowed).1 = none ∧
    findP (setKeyboardPermission s h.id h.id allowed).2 h.id
      = some { h with canKeyboard := allowed } ∧
    (setKeyboardPermission s h.id h.id allowed).2.hostID = s.hostID ∧
    (setMousePermission s h.id h.id allowed).1 = none ∧
    findP (setMousePermission s h.id h.id allowed).2 h.id
      = some { h with canMouse := allowed } ∧
    (setMousePermission s h.id h.id allowed).2.hostID = s.hostID := by
  have hne : ¬(s.hostID ≠ h.id) := by simp [hhost]
  have hk : setKeyboardPermission s h.id h.id allowed
      = (none, updateP s h.id (fun r => { r with canKeyboard := allowed })) := by
    simp [setKeyboardPermission, if_neg hne, hfind]
  have hm : setMousePermission s h.id h.id allowed
      = (none, updateP s h.id (fun r => { r with canMouse := allowed })) := by
    simp [setMousePermission, if_neg hne, hfind]
  refine ⟨by rw [hk], ?_, by rw [hk]; exact hhost.symm ▸ rfl,
          by rw [hm], ?_, by rw [hm]; exact hhost.symm ▸ rfl⟩
  · rw [hk]
    show findP (updateP s h.id (fun r => { r with canKeyboard := allowed })) h.id = _
    rw [findP_updateP s h.id (fun r => { r with canKeyboard := allowed }) (fun r => rfl), hfind]
    rfl
  · rw [hm]
    show findP (updateP s h.id (fun r => { r with canMouse := allowed })) h.id = _
    rw [findP_updateP s h.id (fun r => { r with canMouse := allowed }) (fun r => rfl), hfind]
    rfl

/-- Session with a single host h, for the C2 witness. -/
def sH : Session := runOps s0 [Op.join "h" "n"]

/-- Host participant of `sH`. -/
def pH : Participant :=
  { id := "h", name := "n", role := Role.player, slot := 1, isHost := true,
    canKeyboard := true, canMouse := true }

/-- Witness for C2_host_self_permission at the one-join session. -/
theorem C2_witness :
    (setKeyboardPermission sH pH.id pH.id false).1 = none ∧
    findP (setKeyboardPermission sH pH.id pH.id false).2 pH.id
      = some { pH with canKeyboard := false } ∧
    (setKeyboardPermission sH pH.id pH.id false).2.hostID = sH.hostID ∧
    (setMousePermission sH pH.id pH.id false).1 = none ∧
    findP (setMousePermission sH pH.id pH.id false).2 pH.id
      = some { pH with canMouse := false } ∧
    (setMousePermission sH pH.id pH.id false).2.hostID = sH.hostID :=
  C2_host_self_permission sH pH false (by decide) (by decide)

/-- C7: JoinAsPlayer on a present participant. A player caller gets
AlreadyPlayer with the state unchanged; a spectator caller either finds all
four slots occupied and gets NoSlotAvailable with the state unchanged, or is
assigned the lowest free slot in 1..4 with role Player, keyboard and mouse
permissions untouched. -/
theorem C7_joinAsPlayer_spec (s : Session) (id : String) (p : Participant)
    (hfind : findP s id = some p) :
    (p.role = Role.player → joinAsPlayer s id = (some SessionError.alreadyPlayer, s)) ∧
    (p.role = Role.spectator →
      ((∀ i, 1 ≤ i → i ≤ 4 → (s.slots.getD i none).isSome = true) →
        joinAsPlayer s id = (some SessionError.noSlotAvailable, s)) ∧
      (∀ k, findFreeSlot s.slots = k → 1 ≤ k →
        k ≤ 4 ∧ (s.slots.getD k none).isNone = true ∧
        (∀ j, 1 ≤ j → j < k → (s.slots.getD j none).isSome = true) ∧
        (joinAsPlayer s id).1 = none ∧
        (joinAsPlayer s id).2.slots = s.slots.set k (some id) ∧
        findP (joinAsPlayer s id).2 id
          = some { p with role := Role.player, slot := k })) := by
  constructor
  · intro hrole
    simp [joinAsPlayer, hfind, hrole]
  · intro hrole
    have hrne : ¬(p.role = Role.player) := by simp [hrole]
    constructor
    · intro hall
      have h0 := findFreeSlot_eq_zero s.slots hall
      simp [joinAsPlayer, hfind, hrne, h0]
    · intro k hk h1
      obtain ⟨hk4, hkfree, hmin⟩ := findFreeSlot_spec s.slots k hk h1
      have hkne : ¬(k = 0) := by omega
      have hres : joinAsPlayer s id
          = (none, { (updateP s id (fun r =>
                { r with role := Role.player, slot := k })) with
              slots := s.slots.set k (some id) }) := by
        simp only [joinAsPlayer, hfind, if_neg hrne, hk, if_neg hkne]
        rfl
      refine ⟨hk4, hkfree, hmin, by rw [hres], by rw [hres], ?_⟩
      rw [hres]
      show findP (updateP s id (fun r =>
        { r with role := Role.player, slot := k })) id = _
      rw [findP_updateP s id (fun r =>
        { r with role := Role.player, slot := k }) (fun r => rfl), hfind]
      rfl

/-- Session with host a and full slots b, c, d for the C7 witness:
slots 1..4 are occupied by a, b, c, d. -/
def sFull : Session :=
  runOps s0 [Op.join "a" "n", Op.join "b" "n", Op.join "c" "n", Op.join "d" "n",
    Op.join "e" "n", Op.joinAsPlayer "b", Op.joinAsPlayer "c", Op.joinAsPlayer "d"]

/-- Spectator e of `sFull`. -/
def pE : Participant :=
  { id := "e", name := "n", role := Role.spectator, slot := 0, isHost := false,
    canKeyboard := false, canMouse := false }

/-- Witness for C7_joinAsPlayer_spec at the full session with spectator e. -/
theorem C7_witness :
    (pE.role = Role.player → joinAsPlayer sFull "e" = (some SessionError.alreadyPlayer, sFull)) ∧
    (pE.role = Role.spectator →
      ((∀ i, 1 ≤ i → i ≤ 4 → (sFull.slots.getD i none).isSome = true) →
        joinAsPlayer sFull "e" = (some SessionError.noSlotAvailable, sFull)) ∧
      (∀ k, findFreeSlot sFull.slots = k → 1 ≤ k →
        k ≤ 4 ∧ (sFull.slots.getD k none).isNone = true ∧
        (∀ j, 1 ≤ j → j < k → (sFull.slots.getD j none).isSome = true) ∧
        (joinAsPlayer sFull "e").1 = none ∧
        (joinAsPlayer sFull "e").2.slots = sFull.slots.set k (some "e") ∧
        findP (joinAsPlayer sFull "e").2 "e"
          = some { pE with role := Role.player, slot := k })) :=
  C7_joinAsPlayer_spec sFull "e" pE (by decide)

/-- Session containing a participant with the empty string as id, which
defeats the `hostID == ""` sentinel in Session.Leave. -/
def s8 : Session := runOps s0 [Op.join "a" "n", Op.join "" "m", Op.joinAsPlayer ""]

/-- C8 (counterexample): the claimed equivalence "sessionEnded iff the host
left and no Player remained to promote" fails when the promoted Player's id is
the empty string: Leave promotes the remaining player "" to host, yet returns
sessionEnded = true because the new host id equals the empty-string sentinel. -/
theorem C8_counterexample :
    (leave s8 "a").2.2 = true ∧
    (findP (leave s8 "a").1 "").map (fun q => (q.role, q.isHost))
      = some (Role.player, true) := by decide

/-- C8 (amended): Leave on a present participant returns the removed
participant and clears its slot; if the leaver was host and a Player remains,
one remaining Player is promoted to host with both permissions granted; when
no participant id is the empty string, the returned sessionEnded flag is true
iff the leaver was host and no Player remained to promote (in general the
source computes it as wasHost && newHostID == "", which also fires when the
promoted Player's id is the empty string). -/
theorem C8_leave_spec (s : Session) (id : String) (p : Participant)
    (hfind : findP s id = some p)
    (hids : ∀ q ∈ s.participants, ¬(q.id = "")) :
    (leave s id).2.1 = some p ∧
    findP (leave s id).1 id = none ∧
    (¬(p.slot = 0) → (leave s id).1.slots.getD p.slot none = none) ∧
    ((leave s id).2.2 = true ↔
      (p.isHost = true ∧ ∀ q ∈ s.participants, ¬(q.id = id) → ¬(q.role = Role.player))) ∧
    (p.isHost = true → ∀ q ∈ s.participants, ¬(q.id = id) → q.role = Role.player →
      ∃ q2, q2 ∈ (leave s id).1.participants ∧ q2.isHost = true ∧
        q2.canKeyboard = true ∧ q2.canMouse = true ∧ q2.role = Role.player ∧
        (leave s id).1.hostID = q2.id) := by
  have hfil : ∀ x ∈ s.participants.filter (fun q => ¬(q.id == id)), ¬(x.id = id) := by
    intro x hx
    have := (List.mem_filter.mp hx).2
    simpa using this
  have hmemfil : ∀ q ∈ s.participants, ¬(q.id = id) →
      q ∈ s.participants.filter (fun r => ¬(r.id == id)) := by
    intro q hq hqne
    exact List.mem_filter.mpr ⟨hq, by simpa using hqne⟩
  cases hhost : p.isHost with
  | false =>
    have hres : leave s id
        = ({ s with
              slots := (if p.slot ≠ 0 then s.slots.set p.slot none else s.slots),
              participants := s.participants.filter (fun q => ¬(q.id == id)) },
           some p, false) := by
      simp only [leave, hfind, hhost, Bool.false_eq_true, if_false]
    refine ⟨by rw [hres], ?_, ?_, ?_, ?_⟩
    · rw [hres]
      exact find?_id_eq_none _ id hfil
    · intro hs
      rw [hres]
      show (if p.slot ≠ 0 then s.slots.set p.slot none else s.slots).getD p.slot none = none
      rw [if_pos hs]
      exact getD_set_none s.slots p.slot
    · rw [hres]
      constructor
      · intro h
        exact absurd h (by simp)
      · rintro ⟨h, -⟩
        exact absurd h (by simp)
    · intro h
      exact absurd h (by simp)
  | true =>
    cases hfq : (s.participants.filter (fun q => ¬(q.id == id))).find?
        (fun q => q.role == Role.player) with
    | none =>
      have hnoplayer : ∀ q ∈ s.participants, ¬(q.id = id) → ¬(q.role = Role.player) := by
        intro q hq hqne hqrole
        have := List.find?_eq_none.mp hfq q (hmemfil q hq hqne)
        simp [hqrole] at this
      have hres : leave s id
          = ({ s with
                slots := (if p.slot ≠ 0 then s.slots.set p.slot none else s.slots),
                participants := s.participants.filter (fun q => ¬(q.id == id)),
                hostID := "" },
             some p, true) := by
        simp only [leave, hfind, hhost, if_true, hfq]
        rfl
      refine ⟨by rw [hres], ?_, ?_, ?_, ?_⟩
      · rw [hres]
        exact find?_id_eq_none _ id hfil
      · intro hs
        rw [hres]
        show (if p.slot ≠ 0 then s.slots.set p.slot none else s.slots).getD p.slot none = none
        rw [if_pos hs]
        exact getD_set_none s.slots p.slot
      · rw [hres]
        exact ⟨fun _ => ⟨rfl, hnoplayer⟩, fun _ => rfl⟩
      · intro _ q hq hqne hqrole
        exact absurd hqrole (hnoplayer q hq hqne)
    | some q =>
      have hqmem := List.mem_of_find?_eq_some hfq
      have hqrole : q.role = Role.player := by simpa using List.find?_some hfq
      have hqne : ¬(q.id = "") := hids q (List.mem_of_mem_filter hqmem)
      have hbe : (q.id == "") = false := by simpa using hqne
      have hres : leave s id
          = ({ (updateP { s with
                  slots := (if p.slot ≠ 0 then s.slots.set p.slot none else s.slots),
                  participants := s.participants.filter (fun r => ¬(r.id == id)) }
                q.id (fun r =>
                  { r with isHost := true, canKeyboard := true, canMouse := true }))
              with hostID := q.id },
             some p, true && (q.id == "")) := by
        simp only [leave, hfind, hhost, if_true, hfq]
      have hended : (leave s id).2.2 = false := by
        rw [hres]
        show (true && (q.id == "")) = false
        rw [hbe]
        rfl
      refine ⟨by rw [hres], ?_, ?_, ?_, ?_⟩
      · rw [hres]
        show (((s.participants.filter (fun r => ¬(r.id == id))).map
            (fun r => if r.id == q.id then
              { r with isHost := true, canKeyboard := true, canMouse := true } else r)).find?
            (fun r => r.id == id)) = none
        refine find?_id_eq_none _ id ?_
        intro x hx
        rcases mem_map_update _ _ _ _ hx with ⟨a, ha, -, rfl⟩ | hx2
        · exact hfil a ha
        · exact hfil x hx2
      · intro hs
        rw [hres]
        show (if p.slot ≠ 0 then s.slots.set p.slot none else s.slots).getD p.slot none = none
        rw [if_pos hs]
        exact getD_set_none s.slots p.slot
      · rw [hended]
        constructor
        · intro h
          exact absurd h (by simp)
        · rintro ⟨-, hall⟩
          exact absurd hqrole
            (hall q (List.mem_of_mem_filter hqmem) (hfil q hqmem))
      · intro _ q' hq' hq'ne hq'role
        refine ⟨{ q with isHost := true, canKeyboard := true, canMouse := true },
          ?_, rfl, rfl, rfl, hqrole, ?_⟩
        · rw [hres]
          show _ ∈ (s.participants.filter (fun r => ¬(r.id == id))).map
            (fun r => if r.id == q.id then
              { r with isHost := true, canKeyboard := true, canMouse := true } else r)
          refine List.mem_map.mpr ⟨q, hqmem, ?_⟩
          rw [if_pos (by simp)]
        · rw [hres]

/-- Session with host a and player b in slot 2, for the C8 witness. -/
def sW : Session := runOps s0 [Op.join "a" "n", Op.join "b" "m", Op.joinAsPlayer "b"]

/-- Witness for C8_leave_spec: the host a leaves `sW`; b is promoted and the
session does not end. -/
theorem C8_witness :
    (leave sW "a").2.1 = some pHostA ∧
    findP (leave sW "a").1 "a" = none ∧
    (¬(pHostA.slot = 0) → (leave sW "a").1.slots.getD pHostA.slot none = none) ∧
    ((leave sW "a").2.2 = true ↔
      (pHostA.isHost = true ∧
        ∀ q ∈ sW.participants, ¬(q.id = "a") → ¬(q.role = Role.player))) ∧
    (pHostA.isHost = true → ∀ q ∈ sW.participants, ¬(q.id = "a") → q.role = Role.player →
      ∃ q2, q2 ∈ (leave sW "a").1.participants ∧ q2.isHost = true ∧
        q2.canKeyboard = true ∧ q2.canMouse = true ∧ q2.role = Role.player ∧
        (leave sW "a").1.hostID = q2.id) :=
  C8_leave_spec sW "a" pHostA (by decide) (by decide)

/-! ## SHA-256 (the Go crypto/sha256 primitive used by src/pkg/sunshine/pair.go,
given its standard FIPS 180-4 definition over byte lists) -/

/-- Rotate the 32-bit value x right by n positions. -/
def rotr32 (x n : Nat) : Nat := ((x >>> n) ||| (x <<< (32 - n))) &&& 0xFFFFFFFF

/-- SHA-256 round constants. -/
def shaK : List Nat :=
  [1116352408, 1899447441, 3049323471, 3921009573, 961987163,
   1508970993, 2453635748, 2870763221, 3624381080, 310598401,
   607225278, 1426881987, 1925078388, 2162078206, 2614888103,
   3248222580, 3835390401, 4022224774, 264347078, 604807628,
   770255983, 1249150122, 1555081692, 1996064986, 2554220882,
   2821834349, 2952996808, 3210313671, 3336571891, 3584528711,
   113926993, 338241895, 666307205, 773529912, 1294757372,
   1396182291, 1695183700, 1986661051, 2177026350, 2456956037,
   2730485921, 2820302411, 3259730800, 3345764771, 3516065817,
   3600352804, 4094571909, 275423344, 430227734, 506948616,
   659060556, 883997877, 958139571, 1322822218, 1537002063,
   1747873779, 1955562222, 2024104815, 2227730452, 2361852424,
   2428436474, 2756734187, 3204031479, 3329325298]

/-- SHA-256 initial hash state. -/
def shaInit : List Nat :=
  [1779033703, 3144134277, 1013904242, 2773480762, 1359893119,
   2600822924, 528734635, 1541459225]

/-- The 16 big-endian 32-bit words of a 64-byte block. -/
def wordsOfBlock (block : List Nat) : List Nat :=
  (List.range 16).map (fun i =>
    (block.getD (4 * i) 0) <<< 24 + (block.getD (4 * i + 1) 0) <<< 16 +
    (block.getD (4 * i + 2) 0) <<< 8 + block.getD (4 * i + 3) 0)

/-- Message-schedule extension from 16 to 64 words. -/
def extendWords (w : List Nat) : List Nat :=
  (List.range 48).foldl (fun w _ =>
    let n := w.length
    w ++ [(((rotr32 (w.getD (n - 2) 0) 17) ^^^ (rotr32 (w.getD (n - 2) 0) 19) ^^^
            ((w.getD (n - 2) 0) >>> 10)) + w.getD (n - 7) 0 +
          ((rotr32 (w.getD (n - 15) 0) 7) ^^^ (rotr32 (w.getD (n - 15) 0) 18) ^^^
            ((w.getD (n - 15) 0) >>> 3)) + w.getD (n - 16) 0) % 4294967296]) w

/-- SHA-256 compression of one 64-byte block into the 8-word state. -/
def sha256Compress (h : List Nat) (block : List Nat) : List Nat :=
  let w := extendWords (wordsOfBlock block)
  let st := (List.range 64).foldl
    (fun (st : Nat × Nat × Nat × Nat × Nat × Nat × Nat × Nat) i =>
      let a := st.1
      let b := st.2.1
      let c := st.2.2.1
      let d := st.2.2.2.1
      let e := st.2.2.2.2.1
      let f := st.2.2.2.2.2.1
      let g := st.2.2.2.2.2.2.1
      let hh := st.2.2.2.2.2.2.2
      let t1 := hh + ((rotr32 e 6) ^^^ (rotr32 e 11) ^^^ (rotr32 e 25)) +
        ((e &&& f) ^^^ ((0xFFFFFFFF ^^^ e) &&& g)) + shaK.getD i 0 + w.getD i 0
      let t2 := ((rotr32 a 2) ^^^ (rotr32 a 13) ^^^ (rotr32 a 22)) +
        ((a &&& b) ^^^ (a &&& c) ^^^ (b &&& c))
      ((t1 + t2) % 4294967296, a, b, c, (d + t1) % 4294967296, e, f, g))
    (h.getD 0 0, h.getD 1 0, h.getD 2 0, h.getD 3 0,
     h.getD 4 0, h.getD 5 0, h.getD 6 0, h.getD 7 0)
  [(h.getD 0 0 + st.1) % 4294967296, (h.getD 1 0 + st.2.1) % 4294967296,
   (h.getD 2 0 + st.2.2.1) % 4294967296, (h.getD 3 0 + st.2.2.2.1) % 4294967296,
   (h.getD 4 0 + st.2.2.2.2.1) % 4294967296, (h.getD 5 0 + st.2.2.2.2.2.1) % 4294967296,
   (h.getD 6 0 + st.2.2.2.2.2.2.1) % 4294967296, (h.getD 7 0 + st.2.2.2.2.2.2.2) % 4294967296]

/-- Big-endian bytes of a 32-bit word. -/
def word32ToBytes (x : Nat) : List Nat :=
  [(x >>> 24) % 256, (x >>> 16) % 256, (x >>> 8) % 256, x % 256]

/-- One byte of input fed to the block-buffering loop. -/
def sha256Step (acc : List Nat × List Nat) (b : Nat) : List Nat × List Nat :=
  if acc.2.length = 63 then (sha256Compress acc.1 (acc.2 ++ [b]), [])
  else (acc.1, acc.2 ++ [b])

/-- SHA-256 of a byte list: pad to a block multiple and compress blockwise. -/
def sha256 (msg : List Nat) : List Nat :=
  let len := msg.length
  let k := (64 - ((len + 9) % 64)) % 64
  let lenBytes := (List.range 8).map (fun i => ((len * 8) >>> (8 * (7 - i))) % 256)
  let padded := msg ++ 0x80 :: (List.replicate k 0 ++ lenBytes)
  ((padded.foldl sha256Step (shaInit, [])).1.map word32ToBytes).flatten

set_option maxRecDepth 20000 in
/-- Sanity check against the FIPS 180-4 test vector for the empty message. -/
theorem sha256_nil :
    sha256 []
      = [0xe3, 0xb0, 0xc4, 0x42, 0x98, 0xfc, 0x1c, 0x14, 0x9a, 0xfb, 0xf4, 0xc8,
         0x99, 0x6f, 0xb9, 0x24, 0x27, 0xae, 0x41, 0xe4, 0x64, 0x9b, 0x93, 0x4c,
         0xa4, 0x95, 0x99, 0x1b, 0x78, 0x52, 0xb8, 0x55] := by
  decide

set_option maxRecDepth 20000 in
/-- Sanity check against the FIPS 180-4 test vector for "abc". -/
theorem sha256_abc :
    sha256 [0x61, 0x62, 0x63]
      = [0xba, 0x78, 0x16, 0xbf, 0x8f, 0x01, 0xcf, 0xea, 0x41, 0x41, 0x40, 0xde,
         0x5d, 0xae, 0x22, 0x23, 0xb0, 0x03, 0x61, 0xa3, 0x96, 0x17, 0x7a, 0x9c,
         0xb4, 0x10, 0xff, 0x61, 0xf2, 0x00, 0x15, 0xad] := by
  decide

theorem sha256Compress_length (h block : List Nat) :
    (sha256Compress h block).length = 8 := by
  simp [sha256Compress]

theorem sha256Step_fst_length (acc : List Nat × List Nat) (b : Nat)
    (h : acc.1.length = 8) : ((sha256Step acc b).1).length = 8 := by
  unfold sha256Step
  split
  · exact sha256Compress_length acc.1 (acc.2 ++ [b])
  · exact h

theorem foldl_sha256Step_length (l : List Nat) :
    ∀ acc : List Nat × List Nat, acc.1.length = 8 →
      ((l.foldl sha256Step acc).1).length = 8 := by
  induction l with
  | nil => intro acc h; exact h
  | cons b l ih =>
    intro acc h
    exact ih (sha256Step acc b) (sha256Step_fst_length acc b h)

theorem flatten_word32_length (l : List Nat) :
    ((l.map word32ToBytes).flatten).length = 4 * l.length := by
  induction l with
  | nil => rfl
  | cons x l ih =>
    simp only [List.map_cons, List.flatten_cons, List.length_append, ih,
      List.length_cons]
    simp [word32ToBytes]
    omega

/-- SHA-256 always produces 32 bytes. -/
theorem sha256_length (msg : List Nat) : (sha256 msg).length = 32 := by
  unfold sha256
  rw [flatten_word32_length, foldl_sha256Step_length _ (shaInit, []) (by rfl)]

/-! ## Pairing key derivation and server-secret verification
(src/pkg/sunshine/pair.go) -/

/-- Bytes fed to the hash by deriveAESKey: Go `for _, c := range pin` yields
runes, and `byte(c)` keeps only the low 8 bits of each rune. -/
def goRuneBytes (pin : String) : List Nat :=
  pin.data.map (fun c => c.toNat % 256)

/-- deriveAESKey: first 16 bytes of SHA-256(salt ‖ per-rune bytes of pin). -/
def deriveAESKey (pin : String) (salt : List Nat) : List Nat :=
  (sha256 (salt ++ goRuneBytes pin)).take 16

/-- UTF-8 encoding of one character (standard definition, used only to state
the spec's reading of C5 for comparison with deriveAESKey). -/
def utf8EncodeChar (c : Char) : List Nat :=
  let n := c.toNat
  if n < 0x80 then [n]
  else if n < 0x800 then [0xC0 ||| (n >>> 6), 0x80 ||| (n &&& 0x3F)]
  else if n < 0x10000 then
    [0xE0 ||| (n >>> 12), 0x80 ||| ((n >>> 6) &&& 0x3F), 0x80 ||| (n &&& 0x3F)]
  else
    [0xF0 ||| (n >>> 18), 0x80 ||| ((n >>> 12) &&& 0x3F),
     0x80 ||| ((n >>> 6) &&& 0x3F), 0x80 ||| (n &&& 0x3F)]

/-- UTF-8 encoding of a string. -/
def utf8Encode (s : String) : List Nat := (s.data.map utf8EncodeChar).flatten

/-- Key derivation as the spec words it for C5: first 16 bytes of
SHA-256(salt ‖ UTF-8 bytes of the PIN). -/
def specDeriveAESKey (pin : String) (salt : List Nat) : List Nat :=
  (sha256 (salt ++ utf8Encode pin)).take 16

/-- Concrete 16-byte salt used by witnesses and counterexamples. -/
def salt16 : List Nat := List.replicate 16 0

set_option maxRecDepth 40000 in
/-- C5 (counterexample): for the non-ASCII PIN "é" (code point 0xE9), the key
derived by the code hashes the single byte 0xE9 while the spec's formula
hashes the UTF-8 pair 0xC3 0xA9; the two keys differ. -/
theorem C5_counterexample :
    (deriveAESKey "é" salt16 == specDeriveAESKey "é" salt16) = false ∧
    goRuneBytes "é" = [0xE9] ∧ utf8Encode "é" = [0xC3, 0xA9] := by
  decide

theorem utf8EncodeChar_ascii (c : Char) (h : c.toNat < 128) :
    utf8EncodeChar c = [c.toNat] := by
  unfold utf8EncodeChar
  rw [if_pos h]

theorem goRuneBytes_eq_utf8_of_ascii_list (l : List Char)
    (h : ∀ c ∈ l, c.toNat < 128) :
    l.map (fun c => c.toNat % 256) = (l.map utf8EncodeChar).flatten := by
  induction l with
  | nil => rfl
  | cons c cs ih =>
    have hc : c.toNat < 128 := h c (List.mem_cons_self c cs)
    have hcs : ∀ x ∈ cs, x.toNat < 128 := fun x hx => h x (List.mem_cons_of_mem c hx)
    simp only [List.map_cons, List.flatten_cons, utf8EncodeChar_ascii c hc,
      Nat.mod_eq_of_lt (lt_trans hc (show (128 : Nat) < 256 by norm_num)),
      List.singleton_append]
    exact congrArg (c.toNat :: ·) (ih hcs)

theorem goRuneBytes_eq_utf8_of_ascii (pin : String)
    (h : ∀ c ∈ pin.data, c.toNat < 128) :
    goRuneBytes pin = utf8Encode pin :=
  goRuneBytes_eq_utf8_of_ascii_list pin.data h

/-- C5 (amended): deriveAESKey hashes salt followed by one byte per rune of
the PIN (the rune truncated to 8 bits), which coincides with the spec's
SHA-256(salt ‖ UTF-8 bytes of PIN) exactly when every character of the PIN is
ASCII; for such PINs the claim holds for every salt. -/
theorem C5_deriveAESKey_ascii (pin : String) (salt : List Nat)
    (h : ∀ c ∈ pin.data, c.toNat < 128) :
    deriveAESKey pin salt = specDeriveAESKey pin salt := by
  unfold deriveAESKey specDeriveAESKey
  rw [goRuneBytes_eq_utf8_of_ascii pin h]

/-- Witness for C5_deriveAESKey_ascii at the ASCII PIN "1234". -/
theorem C5_witness : deriveAESKey "1234" salt16 = specDeriveAESKey "1234" salt16 :=
  C5_deriveAESKey_ascii "1234" salt16 (by decide)

/-- Result of a Go function returning only an error (nil = ok). -/
inductive GoResult where
  | ok
  | error (msg : String)
deriving DecidableEq, Repr

/-- verifyServerPairingSecret. The x509 certificate enters only through the
type of its public key and the outcome of rsa.VerifyPKCS1v15 over
SHA-256(RawTBSCertificate); both are abstracted as the booleans `keyIsRSA`
and `rsaVerifyOK`. A verification failure is tolerated (the source returns
nil either way), so the result cannot depend on `rsaVerifyOK`. -/
def verifyServerPairingSecret (secret : List Nat) (keyIsRSA rsaVerifyOK : Bool)
    (salt : List Nat) : GoResult :=
  if secret.length < 256 then GoResult.error "pairing secret too short"
  else
    let serverSignature := secret.take 256
    let serverHash := secret.drop 256
    let expectedHash := sha256 (salt ++ serverSignature)
    if serverHash.length < expectedHash.length then GoResult.error "server hash too short"
    else if ¬((List.range expectedHash.length).all
        (fun i => serverHash.getD i 0 == expectedHash.getD i 0)) then
      GoResult.error "server pairing secret hash mismatch"
    else if ¬(keyIsRSA = true) then GoResult.error "server certificate has non-RSA public key"
    else if rsaVerifyOK then GoResult.ok else GoResult.ok

/-- All-zero 256-byte signature for the C4 counterexample. -/
def sig256 : List Nat := List.replicate 256 0

/-- Server pairing secret whose digest is correct over `salt16`. -/
def secretGood : List Nat := sig256 ++ sha256 (salt16 ++ sig256)

/-- SHA-256 of the 272 zero bytes `salt16 ++ sig256`, as a literal. -/
def digestGood : List Nat :=
  [228, 216, 121, 163, 64, 125, 229, 120, 245, 121, 223, 171, 67, 102, 252, 234,
   117, 166, 100, 156, 104, 61, 158, 254, 79, 5, 111, 101, 5, 67, 117, 116]

set_option maxRecDepth 100000 in
theorem sha256_allzero272 : sha256 (salt16 ++ sig256) = digestGood := by decide

theorem sig256_length : sig256.length = 256 := by
  unfold sig256
  exact List.length_replicate 256 0

theorem secretGood_take : secretGood.take 256 = sig256 := by
  unfold secretGood
  exact List.take_left' sig256_length

theorem secretGood_drop : secretGood.drop 256 = sha256 (salt16 ++ sig256) := by
  unfold secretGood
  exact List.drop_left' sig256_length

theorem secretGood_length : secretGood.length = 288 := by
  unfold secretGood
  rw [List.length_append, sha256_length, sig256_length]

/-- C4 (counterexample): a secret of the correct length whose trailing digest
is exactly SHA-256(salt ‖ signature) is still rejected when the server
certificate's public key is not RSA, so acceptance is not equivalent to the
length-and-digest condition alone. -/
theorem C4_counterexample :
    verifyServerPairingSecret secretGood false true salt16
      = GoResult.error "server certificate has non-RSA public key" ∧
    secretGood.length = 288 ∧
    secretGood.drop 256 = sha256 (salt16 ++ secretGood.take 256) := by
  refine ⟨?_, secretGood_length, ?_⟩
  · unfold verifyServerPairingSecret
    rw [if_neg (by rw [secretGood_length]; norm_num)]
    simp only [secretGood_take, secretGood_drop, sha256_allzero272]
    decide
  · rw [secretGood_drop, secretGood_take]

theorem all_getD_iff_take (a b : List Nat) (hb : b.length = 32) (ha : 32 ≤ a.length) :
    ((List.range 32).all (fun i => a.getD i 0 == b.getD i 0) = true) ↔ a.take 32 = b := by
  rw [List.all_eq_true]
  constructor
  · intro h
    refine List.ext_getElem (by simp [hb]; omega) ?_
    intro n h1 h2
    have hn : n < 32 := by simpa [hb] using h2
    have := h n (List.mem_range.mpr hn)
    have heq : a.getD n 0 = b.getD n 0 := by simpa using this
    rw [List.getElem_take]
    have hna : n < a.length := by omega
    rw [List.getD_eq_getElem a 0 hna, List.getD_eq_getElem b 0 (by omega)] at heq
    exact heq
  · intro h i hi
    have hn : i < 32 := List.mem_range.mp hi
    have h1 : a.getD i 0 = (a.take 32).getD i 0 := by
      rw [List.getD_eq_getElem a 0 (by omega),
        List.getD_eq_getElem (a.take 32) 0 (by simp; omega)]
      simp [List.getElem_take]
    simp only [h1, h]
    simp

/-- C4 (amended): verifyServerPairingSecret accepts iff the secret is at least
288 bytes, bytes 256..287 equal SHA-256(salt ‖ first 256 bytes), and the
server certificate's public key is RSA; given an RSA key, the outcome of the
RSA signature verification never changes the result, while any digest
mismatch rejects. -/
theorem C4_verifyServerPairingSecret (secret salt : List Nat) (rsaOK rsaOK2 : Bool) :
    (verifyServerPairingSecret secret true rsaOK salt = GoResult.ok ↔
      (288 ≤ secret.length ∧
        (secret.drop 256).take 32 = sha256 (salt ++ secret.take 256))) ∧
    verifyServerPairingSecret secret true rsaOK salt
      = verifyServerPairingSecret secret true rsaOK2 salt := by
  have hlen : (sha256 (salt ++ secret.take 256)).length = 32 := sha256_length _
  unfold verifyServerPairingSecret
  by_cases h1 : secret.length < 256
  · rw [if_pos h1, if_pos h1]
    constructor
    · constructor
      · intro h
        exact absurd h (by simp)
      · rintro ⟨h, -⟩
        omega
    · rfl
  · rw [if_neg h1, if_neg h1]
    by_cases h2 : (secret.drop 256).length < (sha256 (salt ++ secret.take 256)).length
    · rw [if_pos h2, if_pos h2]
      have hlt : secret.length < 288 := by
        rw [List.length_drop, hlen] at h2
        omega
      constructor
      · constructor
        · intro h
          exact absurd h (by simp)
        · rintro ⟨h, -⟩
          omega
      · rfl
    · rw [if_neg h2, if_neg h2]
      have hge : 288 ≤ secret.length := by
        rw [List.length_drop, hlen] at h2
        omega
      rw [hlen]
      cases hall : ((List.range 32).all
          (fun i => (secret.drop 256).getD i 0 == (sha256 (salt ++ secret.take 256)).getD i 0)) with
      | true =>
        have htake := (all_getD_iff_take (secret.drop 256)
          (sha256 (salt ++ secret.take 256)) hlen
          (by rw [List.length_drop]; omega)).mp hall
        constructor
        · constructor
          · intro h
            exact ⟨hge, htake⟩
          · intro h
            cases rsaOK <;> simp
        · cases rsaOK <;> cases rsaOK2 <;> simp
      | false =>
        have hntake : ¬((secret.drop 256).take 32 = sha256 (salt ++ secret.take 256)) := by
          intro hc
          have := (all_getD_iff_take (secret.drop 256)
            (sha256 (salt ++ secret.take 256)) hlen
            (by rw [List.length_drop]; omega)).mpr hc
          rw [hall] at this
          exact absurd this (by simp)
        constructor
        · constructor
          · intro h
            exact absurd h (by simp at h)
          · rintro ⟨-, hc⟩
            exact absurd hc hntake
        · simp

/-! ## AES-CBC encryption helpers (src/pkg/sunshine/pair.go aesEncrypt and
aesDecrypt). The AES block permutation itself comes from crypto/aes and is
abstracted as functions `E` and `D` on 16-byte blocks; CBC chaining
(crypto/cipher with the all-zero IV) and PKCS#7 padding are defined here as
the source uses them. -/

/-- Byte-wise xor of two equal-length byte lists. -/
def xorBytes (a b : List Nat) : List Nat := List.zipWith (fun x y => x ^^^ y) a b

/-- Splits a list into `n` chunks of 16 bytes. -/
def toBlocksAux : Nat → List Nat → List (List Nat)
  | 0, _ => []
  | n + 1, l => l.take 16 :: toBlocksAux n (l.drop 16)

/-- Splits a list whose length is a multiple of 16 into 16-byte blocks. -/
def toBlocks (l : List Nat) : List (List Nat) := toBlocksAux (l.length / 16) l

/-- CBC encryption over 16-byte blocks with chaining value `prev`. -/
def cbcEncryptBlocks (E : List Nat → List Nat) (prev : List Nat) :
    List (List Nat) → List (List Nat)
  | [] => []
  | b :: bs =>
    let c := E (xorBytes prev b)
    c :: cbcEncryptBlocks E c bs

/-- CBC decryption over 16-byte blocks with chaining value `prev`. -/
def cbcDecryptBlocks (D : List Nat → List Nat) (prev : List Nat) :
    List (List Nat) → List (List Nat)
  | [] => []
  | c :: cs => xorBytes prev (D c) :: cbcDecryptBlocks D c cs

/-- Result of a Go function returning ([]byte, error), with a case for a
runtime panic. -/
inductive GoBytesResult where
  | ok (bytes : List Nat)
  | error (msg : String)
  | panic
deriving DecidableEq, Repr

/-- Key sizes accepted by aes.NewCipher. -/
def validKeySize (key : List Nat) : Bool :=
  key.length == 16 || key.length == 24 || key.length == 32

/-- aesEncrypt: PKCS#7-pad the plaintext to a multiple of 16 bytes and CBC
encrypt with the all-zero IV. -/
def aesEncrypt (key : List Nat) (E : List Nat → List Nat)
    (plaintext : List Nat) : GoBytesResult :=
  if ¬(validKeySize key = true) then GoBytesResult.error "invalid key size"
  else
    let padding := 16 - plaintext.length % 16
    let padtext := plaintext ++ List.replicate padding padding
    GoBytesResult.ok (cbcEncryptBlocks E (List.replicate 16 0) (toBlocks padtext)).flatten

/-- aesDecrypt: CBC decrypt with the all-zero IV and strip PKCS#7 padding. On
an empty ciphertext the source evaluates `plaintext[len(plaintext)-1]`, i.e.
index -1, which panics at runtime. -/
def aesDecrypt (key : List Nat) (D : List Nat → List Nat)
    (ciphertext : List Nat) : GoBytesResult :=
  if ¬(validKeySize key = true) then GoBytesResult.error "invalid key size"
  else if ¬(ciphertext.length % 16 = 0) then
    GoBytesResult.error "ciphertext is not a multiple of block size"
  else
    let plaintext := (cbcDecryptBlocks D (List.replicate 16 0) (toBlocks ciphertext)).flatten
    match plaintext.getLast? with
    | none => GoBytesResult.panic
    | some padding =>
      if 16 < padding ∨ padding = 0 then GoBytesResult.error "invalid padding"
      else GoBytesResult.ok (plaintext.take (plaintext.length - padding))

/-- C10: aesDecrypt is not total on block-multiple ciphertexts. The empty
ciphertext (length 0, which passes the block-multiple check) reaches the
read of plaintext[-1] and panics instead of returning a result or an error;
a nonempty all-zero block instead yields the invalid-padding error because
its last decrypted byte is 0. -/
theorem C10_aesDecrypt_empty_panics :
    aesDecrypt (List.replicate 16 0) (fun b => b) [] = GoBytesResult.panic ∧
    aesDecrypt (List.replicate 16 0) (fun b => b) (List.replicate 16 0)
      = GoBytesResult.error "invalid padding" := by
  decide

/-! ## Round trip of aesEncrypt and aesDecrypt (claim C6) -/

theorem xorBytes_length (a b : List Nat) :
    (xorBytes a b).length = min a.length b.length := by
  simp [xorBytes]

theorem xorBytes_cancel (a : List Nat) :
    ∀ b : List Nat, a.length = b.length → xorBytes a (xorBytes a b) = b := by
  induction a with
  | nil =>
    intro b h
    have : b = [] := List.eq_nil_of_length_eq_zero (by simpa using h.symm)
    subst this
    rfl
  | cons x xs ih =>
    intro b h
    cases b with
    | nil => simp at h
    | cons y ys =>
      simp only [xorBytes, List.zipWith_cons_cons]
      rw [← Nat.xor_assoc, Nat.xor_self, Nat.zero_xor]
      exact congrArg (y :: ·) (ih ys (by simpa using h))

theorem toBlocksAux_spec (n : Nat) :
    ∀ l : List Nat, l.length = 16 * n →
      (toBlocksAux n l).flatten = l ∧ (∀ b ∈ toBlocksAux n l, b.length = 16) ∧
      (toBlocksAux n l).length = n := by
  induction n with
  | zero =>
    intro l h
    have : l = [] := List.eq_nil_of_length_eq_zero (by omega)
    subst this
    exact ⟨rfl, by intro b hb; simp [toBlocksAux] at hb, rfl⟩
  | succ n ih =>
    intro l h
    have h16 : 16 ≤ l.length := by omega
    have hdrop : (l.drop 16).length = 16 * n := by
      rw [List.length_drop]
      omega
    obtain ⟨hfl, hblen, hcount⟩ := ih (l.drop 16) hdrop
    refine ⟨?_, ?_, ?_⟩
    · show l.take 16 ++ (toBlocksAux n (l.drop 16)).flatten = l
      rw [hfl, List.take_append_drop]
    · intro b hb
      rcases List.mem_cons.mp hb with rfl | hb
      · rw [List.length_take]
        omega
      · exact hblen b hb
    · show (toBlocksAux n (l.drop 16)).length + 1 = n + 1
      rw [hcount]

theorem cbcEncryptBlocks_spec (E : List Nat → List Nat)
    (hE : ∀ b, b.length = 16 → (E b).length = 16) :
    ∀ (bs : List (List Nat)) (prev : List Nat), (∀ b ∈ bs, b.length = 16) →
      prev.length = 16 →
      (∀ c ∈ cbcEncryptBlocks E prev bs, c.length = 16) ∧
      (cbcEncryptBlocks E prev bs).length = bs.length := by
  intro bs
  induction bs with
  | nil =>
    intro prev hbs hprev
    exact ⟨by intro c hc; simp [cbcEncryptBlocks] at hc, rfl⟩
  | cons b bs ih =>
    intro prev hbs hprev
    have hb : b.length = 16 := hbs b (List.mem_cons_self b bs)
    have hx : (xorBytes prev b).length = 16 := by
      rw [xorBytes_length, hprev, hb]
      exact min_self 16
    have hc : (E (xorBytes prev b)).length = 16 := hE _ hx
    obtain ⟨htail, hlen⟩ := ih (E (xorBytes prev b))
      (fun q hq => hbs q (List.mem_cons_of_mem b hq)) hc
    refine ⟨?_, ?_⟩
    · intro c hcm
      rcases List.mem_cons.mp hcm with rfl | hcm
      · exact hc
      · exact htail c hcm
    · show (cbcEncryptBlocks E (E (xorBytes prev b)) bs).length + 1 = bs.length + 1
      rw [hlen]

theorem cbcDecrypt_cbcEncrypt (E D : List Nat → List Nat)
    (hE : ∀ b, b.length = 16 → (E b).length = 16)
    (hD : ∀ b, b.length = 16 → D (E b) = b) :
    ∀ (bs : List (List Nat)) (prev : List Nat), (∀ b ∈ bs, b.length = 16) →
      prev.length = 16 →
      cbcDecryptBlocks D prev (cbcEncryptBlocks E prev bs) = bs := by
  intro bs
  induction bs with
  | nil => intro prev hbs hprev; rfl
  | cons b bs ih =>
    intro prev hbs hprev
    have hb : b.length = 16 := hbs b (List.mem_cons_self b bs)
    have hx : (xorBytes prev b).length = 16 := by
      rw [xorBytes_length, hprev, hb]
      exact min_self 16
    show xorBytes prev (D (E (xorBytes prev b)))
        :: cbcDecryptBlocks D (E (xorBytes prev b))
            (cbcEncryptBlocks E (E (xorBytes prev b)) bs)
      = b :: bs
    rw [hD _ hx, xorBytes_cancel prev b (by rw [hprev, hb]),
      ih (E (xorBytes prev b)) (fun q hq => hbs q (List.mem_cons_of_mem b hq)) (hE _ hx)]

theorem flatten_blocks_length (bs : List (List Nat)) (h : ∀ b ∈ bs, b.length = 16) :
    bs.flatten.length = 16 * bs.length := by
  induction bs with
  | nil => rfl
  | cons b bs ih =>
    rw [List.flatten_cons, List.length_append, h b (List.mem_cons_self b bs),
      ih (fun q hq => h q (List.mem_cons_of_mem b hq)), List.length_cons]
    ring

theorem toBlocksAux_flatten (bs : List (List Nat)) (h : ∀ b ∈ bs, b.length = 16) :
    toBlocksAux bs.length bs.flatten = bs := by
  induction bs with
  | nil => rfl
  | cons b bs ih =>
    have hb : b.length = 16 := h b (List.mem_cons_self b bs)
    show (b ++ bs.flatten).take 16 :: toBlocksAux bs.length ((b ++ bs.flatten).drop 16)
      = b :: bs
    rw [List.take_left' hb, List.drop_left' hb,
      ih (fun q hq => h q (List.mem_cons_of_mem b hq))]

theorem toBlocks_flatten (bs : List (List Nat)) (h : ∀ b ∈ bs, b.length = 16) :
    toBlocks bs.flatten = bs := by
  unfold toBlocks
  rw [flatten_blocks_length bs h, Nat.mul_div_cancel_left _ (by norm_num : (0:Nat) < 16)]
  exact toBlocksAux_flatten bs h

theorem getLast?_replicate_succ (k x : Nat) :
    (List.replicate (k + 1) x).getLast? = some x := by
  induction k with
  | zero => rfl
  | succ n ih =>
    rw [List.replicate_succ, List.getLast?_cons, ih]
    rfl

/-- C6: for every 16-byte key (abstracted as an AES block permutation `E` with
inverse `D`) and every plaintext of length at most 65519, decrypting the
encryption returns exactly the plaintext: the PKCS#7 padding added by
aesEncrypt under the all-zero IV is always valid and removed exactly by
aesDecrypt. -/
theorem C6_aes_roundtrip (key : List Nat) (E D : List Nat → List Nat) (m : List Nat)
    (hkey : key.length = 16)
    (hE : ∀ b, b.length = 16 → (E b).length = 16)
    (hD : ∀ b, b.length = 16 → D (E b) = b)
    (hm : m.length ≤ 65519) :
    ∃ ct, aesEncrypt key E m = GoBytesResult.ok ct ∧
      aesDecrypt key D ct = GoBytesResult.ok m := by
  have hvk : ¬¬(validKeySize key = true) := by
    simp [validKeySize, hkey]
  have hmod : m.length % 16 < 16 := Nat.mod_lt _ (by norm_num)
  have hpad1 : 1 ≤ 16 - m.length % 16 := by omega
  have hpad16 : 16 - m.length % 16 ≤ 16 := by omega
  have hptlen : (m ++ List.replicate (16 - m.length % 16) (16 - m.length % 16)).length
      = m.length + (16 - m.length % 16) := by
    rw [List.length_append, List.length_replicate]
  have hmul : (m ++ List.replicate (16 - m.length % 16) (16 - m.length % 16)).length
      = 16 * ((m ++ List.replicate (16 - m.length % 16) (16 - m.length % 16)).length / 16) := by
    rw [hptlen]
    omega
  obtain ⟨hfl, hblen, hbcount⟩ := toBlocksAux_spec _ _ hmul
  have hblen2 : ∀ b ∈ toBlocks (m ++ List.replicate (16 - m.length % 16)
      (16 - m.length % 16)), b.length = 16 := hblen
  have hfl2 : (toBlocks (m ++ List.replicate (16 - m.length % 16)
      (16 - m.length % 16))).flatten
      = m ++ List.replicate (16 - m.length % 16) (16 - m.length % 16) := hfl
  obtain ⟨hclen, hccount⟩ := cbcEncryptBlocks_spec E hE
    (toBlocks (m ++ List.replicate (16 - m.length % 16) (16 - m.length % 16)))
    (List.replicate 16 0) hblen (List.length_replicate 16 0)
  refine ⟨(cbcEncryptBlocks E (List.replicate 16 0)
    (toBlocks (m ++ List.replicate (16 - m.length % 16) (16 - m.length % 16)))).flatten,
    ?_, ?_⟩
  · unfold aesEncrypt
    rw [if_neg hvk]
  · have hctlen : (cbcEncryptBlocks E (List.replicate 16 0)
        (toBlocks (m ++ List.replicate (16 - m.length % 16) (16 - m.length % 16)))).flatten.length
        = 16 * (cbcEncryptBlocks E (List.replicate 16 0)
            (toBlocks (m ++ List.replicate (16 - m.length % 16) (16 - m.length % 16)))).length :=
      flatten_blocks_length _ hclen
    unfold aesDecrypt
    rw [if_neg hvk, if_neg (by omega)]
    have hblocks : toBlocks (cbcEncryptBlocks E (List.replicate 16 0)
        (toBlocks (m ++ List.replicate (16 - m.length % 16) (16 - m.length % 16)))).flatten
        = cbcEncryptBlocks E (List.replicate 16 0)
            (toBlocks (m ++ List.replicate (16 - m.length % 16) (16 - m.length % 16))) :=
      toBlocks_flatten _ hclen
    have hlast : (m ++ List.replicate (16 - m.length % 16) (16 - m.length % 16)).getLast?
        = some (16 - m.length % 16) := by
      rw [List.getLast?_append]
      have h1 : (16 - m.length % 16) = (16 - m.length % 16 - 1) + 1 := by omega
      rw [h1, getLast?_replicate_succ]
      rfl
    have hnotbad : ¬(16 < 16 - m.length % 16 ∨ 16 - m.length % 16 = 0) := by omega
    have htk : (m ++ List.replicate (16 - m.length % 16) (16 - m.length % 16)).length
        - (16 - m.length % 16) = m.length := by omega
    simp only [hblocks,
      cbcDecrypt_cbcEncrypt E D hE hD
        (toBlocks (m ++ List.replicate (16 - m.length % 16) (16 - m.length % 16)))
        (List.replicate 16 0) hblen2 (List.length_replicate 16 0),
      hfl2, hlast, if_neg hnotbad, htk, List.take_left' (rfl : m.length = m.length)]

/-- Witness for C6_aes_roundtrip with the identity block permutation and a
3-byte plaintext. -/
theorem C6_witness :
    ∃ ct, aesEncrypt (List.replicate 16 0) (fun b => b) [1, 2, 3]
        = GoBytesResult.ok ct ∧
      aesDecrypt (List.replicate 16 0) (fun b => b) ct
        = GoBytesResult.ok [1, 2, 3] :=
  C6_aes_roundtrip (List.replicate 16 0) (fun b => b) (fun b => b) [1, 2, 3]
    (List.length_replicate 16 0) (fun b hb => hb) (fun b hb => rfl) (by norm_num)

/-! ## Binary input parsers (src/pkg/input, the unnamed input package file).
Out-of-bounds reads (Go slice panics) are modelled by the outer `Option`
being `none`; a short frame rejected by the guard is `some none`, mirroring
the (nil, nil) return. -/

/-- Little-endian 16-bit read of data[i:i+2]. -/
def readU16LE (d : List Nat) (i : Nat) : Option Nat := do
  let a ← d[i]?
  let b ← d[i + 1]?
  pure (a + 256 * b)

/-- Little-endian 32-bit read of data[i:i+4]. -/
def readU32LE (d : List Nat) (i : Nat) : Option Nat := do
  let a ← d[i]?
  let b ← d[i + 1]?
  let c ← d[i + 2]?
  let e ← d[i + 3]?
  pure (a + 256 * b + 65536 * c + 16777216 * e)

/-- Reinterpretation of a uint16 as Go int16. -/
def toInt16 (n : Nat) : Int := if n < 32768 then (n : Int) else (n : Int) - 65536

/-- ControllerEvent. -/
structure ControllerEvent where
  controllerNumber : Nat
  buttons : Nat
  leftTrigger : Nat
  rightTrigger : Nat
  leftStickX : Int
  leftStickY : Int
  rightStickX : Int
  rightStickY : Int
deriving DecidableEq, Repr

/-- MouseMoveEvent. -/
structure MouseMoveEvent where
  deltaX : Int
  deltaY : Int
deriving DecidableEq, Repr

/-- MousePositionEvent. -/
structure MousePositionEvent where
  x : Int
  y : Int
  width : Int
  height : Int
deriving DecidableEq, Repr

/-- MouseButtonEvent. -/
structure MouseButtonEvent where
  button : Nat
  action : Nat
deriving DecidableEq, Repr

/-- MouseScrollEvent. -/
structure MouseScrollEvent where
  amount : Int
deriving DecidableEq, Repr

/-- KeyboardEvent. -/
structure KeyboardEvent where
  keyCode : Nat
  action : Nat
  modifiers : Nat
deriving DecidableEq, Repr

/-- ParseControllerData: guard is `len(data) < 13`, but the last stick read is
`data[13:15]`, so 13- and 14-byte inputs pass the guard and read out of
bounds. -/
def parseControllerData (data : List Nat) : Option (Option ControllerEvent) :=
  if data.length < 13 then some none
  else do
    let num ← data[0]?
    let buttons ← readU32LE data 1
    let lt ← data[5]?
    let rt ← data[6]?
    let lx ← readU16LE data 7
    let ly ← readU16LE data 9
    let rx ← readU16LE data 11
    let ry ← readU16LE data 13
    pure (some
      { controllerNumber := num, buttons := buttons, leftTrigger := lt,
        rightTrigger := rt, leftStickX := toInt16 lx, leftStickY := toInt16 ly,
        rightStickX := toInt16 rx, rightStickY := toInt16 ry })

/-- ParseMouseMoveData: guard `len(data) < 4`, reads data[0:4]. -/
def parseMouseMoveData (data : List Nat) : Option (Option MouseMoveEvent) :=
  if data.length < 4 then some none
  else do
    let dx ← readU16LE data 0
    let dy ← readU16LE data 2
    pure (some { deltaX := toInt16 dx, deltaY := toInt16 dy })

/-- ParseMousePositionData: guard `len(data) < 8`, reads data[0:8]. -/
def parseMousePositionData (data : List Nat) : Option (Option MousePositionEvent) :=
  if data.length < 8 then some none
  else do
    let x ← readU16LE data 0
    let y ← readU16LE data 2
    let w ← readU16LE data 4
    let h ← readU16LE data 6
    pure (some { x := toInt16 x, y := toInt16 y, width := toInt16 w, height := toInt16 h })

/-- ParseKeyboardData: guard `len(data) < 4`, reads data[0:4]. -/
def parseKeyboardData (data : List Nat) : Option (Option KeyboardEvent) :=
  if data.length < 4 then some none
  else do
    let code ← readU16LE data 0
    let action ← data[2]?
    let modifiers ← data[3]?
    pure (some { keyCode := code, action := action, modifiers := modifiers })

/-- ParseMouseButtonData: guard `len(data) < 2`, reads data[0:2]. -/
def parseMouseButtonData (data : List Nat) : Option (Option MouseButtonEvent) :=
  if data.length < 2 then some none
  else do
    let button ← data[0]?
    let action ← data[1]?
    pure (some { button := button, action := action })

/-- ParseMouseScrollData: guard `len(data) < 2`, reads data[0:2]. -/
def parseMouseScrollData (data : List Nat) : Option (Option MouseScrollEvent) :=
  if data.length < 2 then some none
  else do
    let amount ← readU16LE data 0
    pure (some { amount := toInt16 amount })

/-- C3: ParseControllerData's guard admits 13- and 14-byte inputs although the
controller payload is 15 bytes, and the subsequent `data[13:15]` read is then
out of bounds (a Go slice panic, modelled as `none`); a 15-byte input parses,
a 12-byte input is rejected by the guard, and the other five parsers reject
frames below their exact payload sizes without any out-of-bounds access. -/
theorem C3_parseControllerData_oob :
    parseControllerData (List.replicate 13 0) = none ∧
    parseControllerData (List.replicate 14 0) = none ∧
    parseControllerData (List.replicate 12 0) = some none ∧
    (parseControllerData (List.replicate 15 0)).isSome = true ∧
    parseMouseMoveData (List.replicate 3 0) = some none ∧
    parseMousePositionData (List.replicate 7 0) = some none ∧
    parseMouseButtonData (List.replicate 1 0) = some none ∧
    parseMouseScrollData (List.replicate 1 0) = some none ∧
    parseKeyboardData (List.replicate 3 0) = some none := by
  decide

/-! ## Launch and resume query parameters (src/pkg/sunshine client) and the
orchestrator's stream-start launch request (package main). -/

/-- LaunchRequest. -/
structure LaunchRequest where
  appID : Nat
  width : Nat
  height : Nat
  fps : Nat
  bitrate : Nat
  riKey : List Nat
  riKeyID : Nat
  localAudio : Bool
  gamepads : Nat
deriving DecidableEq, Repr

/-- Uppercase hex digit. -/
def hexUpperDigit (n : Nat) : Char :=
  if n < 10 then Char.ofNat (48 + n) else Char.ofNat (55 + n)

/-- strings.ToUpper(hex.EncodeToString(bytes)). -/
def hexUpper (bytes : List Nat) : String :=
  String.mk ((bytes.map (fun b => [hexUpperDigit (b / 16), hexUpperDigit (b % 16)])).flatten)

/-- Query parameters set by Client.Launch (addClientParams followed by the
launch-specific parameters, in the order of the source). -/
def launchParams (uniqueID uuid : String) (req : LaunchRequest) :
    List (String × String) :=
  [("uniqueid", uniqueID), ("uuid", uuid),
   ("appid", toString req.appID),
   ("mode", toString req.width ++ "x" ++ toString req.height ++ "x" ++ toString req.fps),
   ("additionalStates", "1"), ("sops", "1"),
   ("rikey", hexUpper req.riKey),
   ("rikeyid", toString req.riKeyID),
   ("localAudioPlayMode", if req.localAudio then "1" else "0"),
   ("remoteControllersBitmap", toString req.gamepads),
   ("gcmap", toString req.gamepads),
   ("gcpersist", "0")]

/-- Query parameters set by Client.Resume (identical body in the source). -/
def resumeParams (uniqueID uuid : String) (req : LaunchRequest) :
    List (String × String) :=
  [("uniqueid", uniqueID), ("uuid", uuid),
   ("appid", toString req.appID),
   ("mode", toString req.width ++ "x" ++ toString req.height ++ "x" ++ toString req.fps),
   ("additionalStates", "1"), ("sops", "1"),
   ("rikey", hexUpper req.riKey),
   ("rikeyid", toString req.riKeyID),
   ("localAudioPlayMode", if req.localAudio then "1" else "0"),
   ("remoteControllersBitmap", toString req.gamepads),
   ("gcmap", toString req.gamepads),
   ("gcpersist", "0")]

/-- LaunchRequest built by the OnStartStream callback in main: RI key bytes
0..15, RI key id 1, local audio off, and Gamepads hardcoded to 0xF
("All 4 gamepads") rather than the session's active-gamepads mask. -/
def onStartStreamLaunchRequest (settings : StreamSettings) (appID : Nat) : LaunchRequest :=
  { appID := appID, width := settings.width, height := settings.height,
    fps := settings.fps, bitrate := settings.bitrate,
    riKey := List.range 16, riKeyID := 1, localAudio := false, gamepads := 15 }

/-- C9 (counterexample): at stream start with only the host joined, the
session's active-gamepads mask is 1, but the launch request sends
remoteControllersBitmap = gcmap = 15 (the hardcoded 0xF), so the value sent
does not equal the mask of the session at that moment. -/
theorem C9_counterexample :
    getActiveGamepads (runOps s0 [Op.join "a" "n"]) = 1 ∧
    (launchParams "0123456789ABCDEF" "u"
        (onStartStreamLaunchRequest defaultSettings 1)).lookup "remoteControllersBitmap"
      = some "15" ∧
    (launchParams "0123456789ABCDEF" "u"
        (onStartStreamLaunchRequest defaultSettings 1)).lookup "gcmap" = some "15" := by
  decide

theorem getActiveGamepads_sum (s : Session) :
    getActiveGamepads s
      = (if (s.slots.getD 1 none).isSome then 1 else 0)
        + (if (s.slots.getD 2 none).isSome then 2 else 0)
        + (if (s.slots.getD 3 none).isSome then 4 else 0)
        + (if (s.slots.getD 4 none).isSome then 8 else 0) := by
  unfold getActiveGamepads
  simp only [List.foldl]
  cases h1 : (s.slots.getD 1 none).isSome <;>
    cases h2 : (s.slots.getD 2 none).isSome <;>
      cases h3 : (s.slots.getD 3 none).isSome <;>
        cases h4 : (s.slots.getD 4 none).isSome <;>
          decide

/-- C9 (amended): Launch and Resume both set remoteControllersBitmap and gcmap
to the decimal rendering of req.Gamepads and set gcpersist to 0;
GetActiveGamepads has bit i set exactly when slot i+1 is occupied; but the
stream-start callback fills req.Gamepads with the constant 0xF (all four
gamepads), not with the session's active-gamepads mask. -/
theorem C9_launch_gamepads (uniqueID uuid : String) (req : LaunchRequest)
    (settings : StreamSettings) (appID : Nat) (s : Session) (i : Nat) :
    (launchParams uniqueID uuid req).lookup "remoteControllersBitmap"
        = some (toString req.gamepads) ∧
    (launchParams uniqueID uuid req).lookup "gcmap" = some (toString req.gamepads) ∧
    (launchParams uniqueID uuid req).lookup "gcpersist" = some "0" ∧
    (resumeParams uniqueID uuid req).lookup "remoteControllersBitmap"
        = some (toString req.gamepads) ∧
    (resumeParams uniqueID uuid req).lookup "gcmap" = some (toString req.gamepads) ∧
    (resumeParams uniqueID uuid req).lookup "gcpersist" = some "0" ∧
    (onStartStreamLaunchRequest settings appID).gamepads = 15 ∧
    Nat.testBit (getActiveGamepads s) i
      = (decide (i < 4) && (s.slots.getD (i + 1) none).isSome) := by
  refine ⟨rfl, rfl, rfl, rfl, rfl, rfl, rfl, ?_⟩
  rw [getActiveGamepads_sum]
  rcases Nat.lt_or_ge i 4 with hi | hi
  · interval_cases i <;>
      cases h1 : (s.slots.getD 1 none).isSome <;>
        cases h2 : (s.slots.getD 2 none).isSome <;>
          cases h3 : (s.slots.getD 3 none).isSome <;>
            cases h4 : (s.slots.getD 4 none).isSome <;>
              decide
  · have hlt : (if (s.slots.getD 1 none).isSome then 1 else 0)
        + (if (s.slots.getD 2 none).isSome then 2 else 0)
        + (if (s.slots.getD 3 none).isSome then 4 else 0)
        + (if (s.slots.getD 4 none).isSome then 8 else 0) < 2 ^ i := by
      have h16 : (2 : Nat) ^ 4 ≤ 2 ^ i := Nat.pow_le_pow_right (by norm_num) hi
      have : (if (s.slots.getD 1 none).isSome then 1 else 0)
          + (if (s.slots.getD 2 none).isSome then 2 else 0)
          + (if (s.slots.getD 3 none).isSome then 4 else 0)
          + (if (s.slots.getD 4 none).isSome then 8 else 0) < 16 := by
        split_ifs <;> norm_num
      omega
    rw [Nat.testBit_lt_two_pow hlt]
    have : ¬(i < 4) := by omega
    simp [this]

end Gamelight
